import Mathlib

/-
Formal model of the dirclass library (src/dirclass/core.py).

The library wraps a filesystem directory in a facade object: it lists and
reads files under a root path with shell-glob filtering, and it exposes
immediate subdirectories as dynamically resolved attributes.

Modelling conventions:
- Python strings are Lean String values; character classification
  (isAlphanum, isDigit, toLower) is modelled with the corresponding Lean
  Char functions, which agree with Python on ASCII input.
- The filesystem is a pure tree of entries; a file carries an optional
  UTF-8 content, where none models a file whose open/read/decode raises
  (the per-file failure that read_all logs and skips).
- Python dict insertion into _subdir_name_to_path is modelled by an
  association list with first-match lookup and insert-or-update.
- fnmatch.fnmatch is modelled by compiling the glob pattern into tokens
  and matching them against the base name, following the documented
  shell-glob semantics used by fnmatch on POSIX (case-sensitive, star for
  any run, question mark for one character, bracket classes with ranges
  and negation, a closing bracket placed first in a class taken literally,
  an unterminated class taken as a literal opening bracket).
-/

/-! ### Name sanitization (core.py, _sanitize_attribute_name, lines 171-188) -/

/-- One character of the cleaning step of _sanitize_attribute_name:
a character that is alphanumeric or an underscore is kept, every other
character becomes an underscore (core.py line 180). -/
def pyRepl (ch : Char) : Char :=
  if ch.isAlphanum ∨ ch = '_' then ch else '_'

/-- One pass of the Python expression cleaned.replace of a double
underscore by a single one: scans left to right, replacing each
non-overlapping occurrence (core.py line 187). -/
def replaceDunder : List Char → List Char
  | [] => []
  | [c] => [c]
  | c1 :: c2 :: rest =>
    if c1 = '_' ∧ c2 = '_' then '_' :: replaceDunder rest
    else c1 :: replaceDunder (c2 :: rest)

/-- The Python condition of the while loop in _sanitize_attribute_name:
whether the string still contains two consecutive underscores
(core.py line 186). -/
def hasDunder : List Char → Bool
  | c1 :: c2 :: rest =>
    if c1 = '_' ∧ c2 = '_' then true else hasDunder (c2 :: rest)
  | _ => false

/-- The while loop of _sanitize_attribute_name (core.py lines 186-187),
run with an explicit iteration bound. Each productive iteration strictly
shortens the string, so a bound equal to the length of the input makes the
bounded loop agree with the unbounded Python loop. -/
def collapseLoopFuel : Nat → List Char → List Char
  | 0, s => s
  | n + 1, s => if hasDunder s then collapseLoopFuel n (replaceDunder s) else s

/-- The body of _sanitize_attribute_name on the character list of the
input (core.py lines 178-188): return empty for empty input, replace
every character that is not alphanumeric or underscore by an underscore,
prefix an underscore when the cleaned name starts with a digit, then
collapse repeated underscores with the while loop. -/
def sanitizeList (s : List Char) : List Char :=
  if s = [] then []
  else
    let cleaned := s.map pyRepl
    if cleaned = [] then []
    else
      let prefixed := if (cleaned.headD ' ').isDigit then '_' :: cleaned else cleaned
      collapseLoopFuel prefixed.length prefixed

/-- _sanitize_attribute_name (core.py lines 171-188): convert an arbitrary
folder name to a safe attribute identifier. -/
def _sanitize_attribute_name (name : String) : String :=
  String.mk (sanitizeList name.data)

/-- Reference collapsing, written from the wording of the specification:
every run of consecutive underscores is collapsed to a single
underscore. -/
def collapseRuns : List Char → List Char
  | [] => []
  | [c] => [c]
  | c1 :: c2 :: rest =>
    if c1 = '_' ∧ c2 = '_' then collapseRuns (c2 :: rest)
    else c1 :: collapseRuns (c2 :: rest)

/-- Reference sanitization on character lists, written from the wording of
the specification: replace any character that is not alphanumeric or
underscore with an underscore, collapse repeated underscores, and prefix
an underscore when the result starts with a digit; empty maps to empty. -/
def sanitizeRefList (s : List Char) : List Char :=
  let col := collapseRuns (s.map pyRepl)
  if (col.headD ' ').isDigit then '_' :: col else col

/-- Reference sanitization on strings (from the specification wording),
to be compared with _sanitize_attribute_name. -/
def sanitizeRef (name : String) : String :=
  String.mk (sanitizeRefList name.data)

/-- The Python method str.lower, modelled characterwise (ASCII). -/
def pyLower (s : String) : String :=
  String.mk (s.data.map Char.toLower)

/-! ### Shell glob matching (fnmatch.fnmatch as used in core.py line 42) -/

/-- One member of a bracket character class: a literal character or an
inclusive character range. -/
inductive ClassItem where
  | single (c : Char)
  | range (lo hi : Char)

/-- Whether a character belongs to one of the members of a bracket
class. -/
def classMatch (items : List ClassItem) (c : Char) : Bool :=
  items.any fun item =>
    match item with
    | ClassItem.single a => c == a
    | ClassItem.range lo hi => decide (lo ≤ c ∧ c ≤ hi)

/-- Parse the members of a bracket class after any leading negation mark
and first-position literal bracket, up to the closing bracket. Returns
none when the class is never closed, in which case fnmatch treats the
opening bracket as a literal. A hyphen between two characters denotes a
range, except that a hyphen directly before the closing bracket is a
literal. -/
def parseClassItems : List Char → Option (List ClassItem × List Char)
  | [] => none
  | ']' :: rest => some ([], rest)
  | a :: '-' :: b :: rest =>
    if b = ']' then some ([ClassItem.single a, ClassItem.single '-'], rest)
    else
      match parseClassItems rest with
      | some (items, r) => some (ClassItem.range a b :: items, r)
      | none => none
  | a :: rest =>
    match parseClassItems rest with
    | some (items, r) => some (ClassItem.single a :: items, r)
    | none => none

/-- Parse a bracket class body once the optional negation mark has been
consumed: a closing bracket in first position is a literal member. -/
def parseClassBody (neg : Bool) (l : List Char) : Option (Bool × List ClassItem × List Char) :=
  match l with
  | ']' :: t =>
    match parseClassItems t with
    | some (items, rest) => some (neg, ClassItem.single ']' :: items, rest)
    | none => none
  | _ =>
    match parseClassItems l with
    | some (items, rest) => some (neg, items, rest)
    | none => none

/-- Parse the text following an opening bracket: an exclamation mark in
first position negates the class. -/
def parseClass (l : List Char) : Option (Bool × List ClassItem × List Char) :=
  match l with
  | '!' :: t => parseClassBody true t
  | _ => parseClassBody false l

/-- A compiled glob-pattern token. -/
inductive Tok where
  | star
  | qmark
  | lit (c : Char)
  | cls (neg : Bool) (items : List ClassItem)

/-- Compile a glob pattern into tokens. The bound is the pattern length;
every step consumes at least one character of the pattern, so the bound
never runs out when starting from the full length. -/
def compileGo : Nat → List Char → List Tok
  | _, [] => []
  | 0, _ :: _ => []
  | n + 1, c :: rest =>
    if c = '[' then
      match parseClass rest with
      | some (neg, items, rest2) => Tok.cls neg items :: compileGo n rest2
      | none => Tok.lit '[' :: compileGo n rest
    else if c = '*' then Tok.star :: compileGo n rest
    else if c = '?' then Tok.qmark :: compileGo n rest
    else Tok.lit c :: compileGo n rest

/-- Compile a glob pattern given as a character list. -/
def compilePat (p : List Char) : List Tok :=
  compileGo p.length p

/-- Try a continuation on every suffix of the input, in order from the
longest: this is how a star token consumes any run of characters. -/
def starLoop (k : List Char → Bool) : List Char → Bool
  | [] => k []
  | c :: s => k (c :: s) || starLoop k s

/-- Match a compiled glob pattern against a character list. -/
def matchToks : List Tok → List Char → Bool
  | [], s => s.isEmpty
  | Tok.star :: ts, s => starLoop (fun t => matchToks ts t) s
  | Tok.qmark :: ts, s =>
    match s with
    | [] => false
    | _ :: s2 => matchToks ts s2
  | Tok.lit c :: ts, s =>
    match s with
    | [] => false
    | c2 :: s2 => if c2 = c then matchToks ts s2 else false
  | Tok.cls neg items :: ts, s =>
    match s with
    | [] => false
    | c2 :: s2 => if classMatch items c2 = neg then false else matchToks ts s2

/-- fnmatch.fnmatch(name, pat) on POSIX: case-sensitive shell glob
matching of the whole name against the pattern. -/
def fnmatch (name pat : String) : Bool :=
  matchToks (compilePat pat.data) name.data

/-! ### Filesystem model -/

mutual
/-- A filesystem entry: a file with an optional UTF-8 content (none
models a file whose read raises), or a directory with children in
listing order. -/
inductive Entry where
  | file (name : String) (content : Option String)
  | dir (name : String) (children : EntryList)
/-- A list of filesystem entries in listing order. -/
inductive EntryList where
  | nil
  | cons (head : Entry) (tail : EntryList)
end

/-- Build an entry list from an ordinary list. -/
def EntryList.ofList : List Entry → EntryList
  | [] => EntryList.nil
  | e :: rest => EntryList.cons e (EntryList.ofList rest)

/-- A file as produced by the traversal: its full path components and the
optional content used when read_all opens it. -/
structure FileRef where
  path : List String
  content : Option String

/-- The base name of a file path (Python Path.name, core.py line 40). -/
def FileRef.name (f : FileRef) : String :=
  f.path.getLastD ""

/-- The string form str(p) of a file path (core.py lines 71 and 145). -/
def FileRef.toString (f : FileRef) : String :=
  String.intercalate "/" f.path

/-- A directory handle: its full path components, its base name, and its
children. -/
structure Dir where
  path : List String
  name : String
  children : EntryList

mutual
/-- All files below one entry, in depth-first listing order. -/
def entryFiles (pre : List String) : Entry → List FileRef
  | Entry.file n c => [⟨pre ++ [n], c⟩]
  | Entry.dir n ch => filesUnder (pre ++ [n]) ch
/-- All files below a list of entries, in depth-first listing order:
this models the files seen by root.rglob (core.py line 30). -/
def filesUnder (pre : List String) : EntryList → List FileRef
  | EntryList.nil => []
  | EntryList.cons e rest => entryFiles pre e ++ filesUnder pre rest
end

/-- The files directly inside a directory, skipping subdirectories: this
models the files seen by root.iterdir (core.py line 32). -/
def filesTop (pre : List String) : EntryList → List FileRef
  | EntryList.nil => []
  | EntryList.cons (Entry.file n c) rest => ⟨pre ++ [n], c⟩ :: filesTop pre rest
  | EntryList.cons (Entry.dir _ _) rest => filesTop pre rest

/-- _iter_files (core.py lines 28-32): every file under root at any depth
when recursive, otherwise only the files directly inside root. -/
def _iter_files (root : Dir) (recursive : Bool) : List FileRef :=
  if recursive then filesUnder root.path root.children
  else filesTop root.path root.children

/-! ### Pattern arguments and filtering -/

/-- The Python type str, Sequence of str, or None taken by the pattern
parameters. -/
inductive PyPatterns where
  | none
  | str (s : String)
  | seq (l : List String)

/-- Python truthiness of a pattern argument: None is falsy, a string is
truthy when non-empty, a sequence is truthy when non-empty. -/
def truthy : PyPatterns → Bool
  | PyPatterns.none => false
  | PyPatterns.str s => if s = "" then false else true
  | PyPatterns.seq l => if l = [] then false else true

/-- _ensure_patterns (core.py lines 20-25): None becomes the match-all
pattern, a single string becomes a one-element list, an empty sequence
becomes the match-all pattern, a non-empty sequence is used as is. -/
def _ensure_patterns : PyPatterns → List String
  | PyPatterns.none => ["*"]
  | PyPatterns.str s => [s]
  | PyPatterns.seq l => if l = [] then ["*"] else l

/-- Inject the stored default_file_types field (a Python list or None)
into the pattern-argument type. -/
def patternsOfOption : Option (List String) → PyPatterns
  | Option.none => PyPatterns.none
  | Option.some l => PyPatterns.seq l

/-- The Python expression a or b evaluated on a pattern argument and the
stored defaults: the first operand when truthy, otherwise the second
(core.py lines 68 and 78). -/
def pyOr (a : PyPatterns) (b : Option (List String)) : PyPatterns :=
  if truthy a then a else patternsOfOption b

/-- The inner loop of _filter_files (core.py lines 38-44): keep each file
whose base name matches at least one pattern; the break after the first
matching pattern makes the patterns a logical OR and appends each file at
most once. -/
def filterLoop (patterns : List String) : List FileRef → List FileRef
  | [] => []
  | f :: rest =>
    if patterns.any (fun pat => fnmatch f.name pat) then f :: filterLoop patterns rest
    else filterLoop patterns rest

/-- _filter_files (core.py lines 35-45): return the input unchanged when
the pattern list is empty or exactly the single match-all pattern,
otherwise run the matching loop. -/
def _filter_files (files : List FileRef) (patterns : List String) : List FileRef :=
  if patterns = [] ∨ patterns = ["*"] then files
  else filterLoop patterns files

/-! ### The DirClass facade -/

/-- The DirClass dataclass (core.py lines 48-58): root directory,
recursion flag, default patterns (a list or None), and the mapping from
sanitized subdirectory names to directories built at construction. -/
structure DirClass where
  root : Dir
  recursive : Bool
  default_file_types : Option (List String)
  _subdir_name_to_path : List (String × Dir)

/-- The real (static) attribute and method names of a DirClass instance
that a sanitized candidate could collide with. Names inherited from
object and generated by dataclass all contain a double underscore, which
no sanitized candidate can contain, so only these six are listed. -/
def builtinMembers : List String :=
  ["root", "recursive", "default_file_types", "_subdir_name_to_path", "all", "read_all"]

/-- Lookup in the subdirectory mapping (Python dict get), first match in
insertion order. -/
def lookupSub : List (String × Dir) → String → Option Dir
  | [], _ => none
  | (k, v) :: rest, name => if k = name then some v else lookupSub rest name

/-- The lookup chain of DirClass.__getattr__ (core.py lines 133-141):
exact key, then sanitized key, then lowercase key, then lowercase
sanitized key, keeping the first hit. -/
def resolveName (m : List (String × Dir)) (name : String) : Option Dir :=
  match lookupSub m name with
  | some sub => some sub
  | none =>
    match lookupSub m (_sanitize_attribute_name name) with
    | some sub => some sub
    | none =>
      match lookupSub m (pyLower name) with
      | some sub => some sub
      | none => lookupSub m (pyLower (_sanitize_attribute_name name))

/-- The file listing returned for a resolved subdirectory (core.py lines
143-145): filter the files under the subdirectory with the instance
default patterns and recursion flag, and render the paths as strings. -/
def getattrFiles (d : DirClass) (sub : Dir) : List String :=
  let patterns := _ensure_patterns (patternsOfOption d.default_file_types)
  (_filter_files (_iter_files sub d.recursive) patterns).map FileRef.toString

/-- The AttributeError message of __getattr__ (core.py line 146),
identifying the requested name. -/
def unknownMember (name : String) : String :=
  "DirClass object has no attribute " ++ name

/-- DirClass.__getattr__ (core.py lines 131-146): resolve the requested
name through the lookup chain; on a hit return the subdirectory file
listing, otherwise raise AttributeError naming the attribute. -/
def DirClass.getattr (d : DirClass) (name : String) : Except String (List String) :=
  match resolveName d._subdir_name_to_path name with
  | some sub => Except.ok (getattrFiles d sub)
  | none => Except.error (unknownMember name)

/-- Python str.split on a dot: the list of dot-separated segments. -/
def splitDot : List Char → List (List Char)
  | [] => [[]]
  | c :: rest =>
    if c = '.' then [] :: splitDot rest
    else
      match splitDot rest with
      | seg :: segs => (c :: seg) :: segs
      | [] => [[c]]

/-- The optional tail candidate of __post_init__ (core.py line 106): the
segment after the last dot of the child name, present only when the name
contains a dot. -/
def tailCandidate (nameData : List Char) : Option (List Char) :=
  if nameData.contains '.' then some ((splitDot nameData).getLastD [])
  else none

/-- One pass of the candidate-building loop body (core.py lines 108-115):
skip an empty name, append the name when new, then append its lowercase
form when non-empty and new. -/
def addCandidate (cands : List String) (nm : String) : List String :=
  if nm = "" then cands
  else
    let cands1 := if nm ∈ cands then cands else cands ++ [nm]
    let lower := pyLower nm
    if lower = "" then cands1
    else if lower ∈ cands1 then cands1
    else cands1 ++ [lower]

/-- The attribute candidates generated for one child directory (core.py
lines 105-115): the sanitized full name, the sanitized tail after the
last dot when the name contains a dot, and the lowercase forms of both,
deduplicated in order of first appearance. -/
def candidatesFor (childName : String) : List String :=
  let cands := addCandidate [] (_sanitize_attribute_name childName)
  match tailCandidate childName.data with
  | some seg => addCandidate cands (_sanitize_attribute_name (String.mk seg))
  | none => cands

/-- Python dict assignment: update the value in place when the key is
present, otherwise append the binding at the end. -/
def dictInsert (m : List (String × Dir)) (k : String) (v : Dir) : List (String × Dir) :=
  match m with
  | [] => [(k, v)]
  | (k2, v2) :: rest => if k2 = k then (k2, v) :: rest else (k2, v2) :: dictInsert rest k v

/-- Registration of one candidate for one child (core.py lines 117-127).
The hasattr test succeeds when the candidate is a real member or when
__getattr__ already resolves it through the mapping built so far; such
candidates are skipped. A candidate already claimed by a directory with a
different path is also skipped (Python compares Path values, which
compares their path strings). Otherwise the binding is stored. -/
def registerCand (child : Dir) (m : List (String × Dir)) (cand : String) : List (String × Dir) :=
  if cand ∈ builtinMembers ∨ (resolveName m cand).isSome then m
  else
    match lookupSub m cand with
    | some existing => if existing.path ≠ child.path then m else dictInsert m cand child
    | none => dictInsert m cand child

/-- Process all candidates of one child directory (core.py lines
117-127). -/
def registerChild (m : List (String × Dir)) (child : Dir) : List (String × Dir) :=
  (candidatesFor child.name).foldl (registerCand child) m

/-- Process a list of child directories in listing order. -/
def registerAll (m : List (String × Dir)) (dirs : List Dir) : List (String × Dir) :=
  dirs.foldl registerChild m

/-- The immediate child directories of the root, in listing order,
skipping plain files (core.py lines 100-102). -/
def subdirEntries (rootPath : List String) : EntryList → List Dir
  | EntryList.nil => []
  | EntryList.cons (Entry.file _ _) rest => subdirEntries rootPath rest
  | EntryList.cons (Entry.dir n ch) rest => ⟨rootPath ++ [n], n, ch⟩ :: subdirEntries rootPath rest

/-- The subdirectory mapping built by DirClass.__post_init__ (core.py
lines 90-129) from an empty dict. The defensive try/except around the
listing cannot fire in the pure filesystem model. -/
def post_init (root : Dir) : List (String × Dir) :=
  registerAll [] (subdirEntries root.path root.children)

/-- Construct a DirClass the way the dataclass constructor does, running
__post_init__ to build the subdirectory mapping. -/
def mkDirClass (root : Dir) (recursive : Bool) (dft : Option (List String)) : DirClass :=
  ⟨root, recursive, dft, post_init root⟩

/-- DirClass.all (core.py lines 60-71): normalize the effective patterns
(the override when truthy, else the stored defaults), enumerate the files
under the root per the recursion flag, filter them, and render the paths
as strings. -/
def DirClass.all (d : DirClass) (file_types : PyPatterns) : List String :=
  let patterns := _ensure_patterns (pyOr file_types d.default_file_types)
  let files := _iter_files d.root d.recursive
  (_filter_files files patterns).map FileRef.toString

/-- The reading loop of read_all (core.py lines 80-87): append the text
of each file that reads successfully; a failing file only causes a logged
warning and is skipped, so the loop never raises. -/
def readLoop : List FileRef → List String
  | [] => []
  | f :: rest =>
    match f.content with
    | some text => text :: readLoop rest
    | none => readLoop rest

/-- DirClass.read_all (core.py lines 73-87): same filtering as all, then
the reading loop over the matched files. -/
def DirClass.read_all (d : DirClass) (file_types : PyPatterns) : List String :=
  let patterns := _ensure_patterns (pyOr file_types d.default_file_types)
  let files := _filter_files (_iter_files d.root d.recursive) patterns
  readLoop files

/-- The matched path list of a call to read_all (core.py line 79), used
to state what read_all returns. -/
def matchedFiles (d : DirClass) (file_types : PyPatterns) : List FileRef :=
  _filter_files (_iter_files d.root d.recursive) (_ensure_patterns (pyOr file_types d.default_file_types))

/-- The observable outcome of a Python attribute access on a DirClass
instance. -/
inductive AttrResult where
  | builtin (name : String)
  | files (paths : List String)
  | err (msg : String)

/-- Python attribute access semantics: ordinary member lookup first, and
only when it fails is __getattr__ consulted. -/
def DirClass.accessAttr (d : DirClass) (name : String) : AttrResult :=
  if name ∈ builtinMembers then AttrResult.builtin name
  else
    match DirClass.getattr d name with
    | Except.ok l => AttrResult.files l
    | Except.error e => AttrResult.err e

/-- What the filesystem reports for a resolved path: an existing
directory with its children, an existing non-directory, or (none) nothing
at all. -/
inductive PathKind where
  | dirNode (children : EntryList)
  | fileNode

/-- The dirclass factory (core.py lines 154-168). The composition of
expanduser and resolve is abstracted as the resolve argument and the
filesystem as the stat argument. When the resolved path is not an
existing directory the factory raises NotADirectoryError; otherwise it
builds the facade on the resolved root with the normalized default
patterns. -/
def dirclass (stat : String → Option PathKind) (resolve : String → String)
    (father_folder_path : String) (recursive : Bool) (file_types : PyPatterns) :
    Except String DirClass :=
  let root := resolve father_folder_path
  match stat root with
  | some (PathKind.dirNode children) =>
    let default_patterns := _ensure_patterns file_types
    Except.ok (mkDirClass ⟨[root], root, children⟩ recursive (some default_patterns))
  | _ => Except.error ("Not a directory: " ++ root)

/-- The four-candidate lookup sequence of __getattr__, written from the
wording of the specification: try the exact key, the sanitized key, the
lowercase key, then the lowercase sanitized key, and keep the first
mapping hit. -/
def lookupChainRef (m : List (String × Dir)) (name : String) : Option Dir :=
  List.findSome? (fun key => lookupSub m key)
    [name, _sanitize_attribute_name name, pyLower name, pyLower (_sanitize_attribute_name name)]

/-! ### Concrete fixtures used by witnesses and counterexamples -/

/-- A concrete root directory with one Python file and one Markdown
file. -/
def exRoot : Dir :=
  ⟨["r"], "r", EntryList.ofList [Entry.file "a.py" (some "print"), Entry.file "b.md" (some "hello")]⟩

/-- A concrete facade over exRoot whose default patterns keep only Python
files. -/
def exD : DirClass := mkDirClass exRoot true (some ["*.py"])

/-- The files enumerated under exRoot. -/
def exFiles : List FileRef := _iter_files exRoot true

/-- A child directory whose name contains a dot. -/
def exDirA : Dir := ⟨["r", "My.Data"], "My.Data", EntryList.nil⟩

/-- A second child directory whose sanitized name collides with the one
of exDirA. -/
def exDirB : Dir := ⟨["r", "My_Data"], "My_Data", EntryList.nil⟩

/-- A one-directory filesystem used by the factory witness. -/
def statW : String → Option PathKind :=
  fun s => if s = "/data" then some (PathKind.dirNode EntryList.nil) else none

/-! ### Lemmas about underscore collapsing and sanitization -/

theorem collapseRuns_dd (rest : List Char) :
    collapseRuns ('_' :: '_' :: rest) = collapseRuns ('_' :: rest) := by
  simp [collapseRuns]

theorem collapseRuns_ne (c1 c2 : Char) (rest : List Char) (h : ¬(c1 = '_' ∧ c2 = '_')) :
    collapseRuns (c1 :: c2 :: rest) = c1 :: collapseRuns (c2 :: rest) := by
  rw [collapseRuns, if_neg h]

theorem replaceDunder_dd (rest : List Char) :
    replaceDunder ('_' :: '_' :: rest) = '_' :: replaceDunder rest := by
  simp [replaceDunder]

theorem replaceDunder_ne (c1 c2 : Char) (rest : List Char) (h : ¬(c1 = '_' ∧ c2 = '_')) :
    replaceDunder (c1 :: c2 :: rest) = c1 :: replaceDunder (c2 :: rest) := by
  rw [replaceDunder, if_neg h]

theorem hasDunder_ne (c1 c2 : Char) (rest : List Char) (h : ¬(c1 = '_' ∧ c2 = '_')) :
    hasDunder (c1 :: c2 :: rest) = hasDunder (c2 :: rest) := by
  rw [hasDunder, if_neg h]

theorem replaceDunder_head : ∀ (c : Char) (l : List Char), ∃ t, replaceDunder (c :: l) = c :: t
  | _, [] => ⟨[], rfl⟩
  | c, c2 :: rest => by
    by_cases hd : c = '_' ∧ c2 = '_'
    · obtain ⟨h1, h2⟩ := hd
      subst h1; subst h2
      exact ⟨replaceDunder rest, replaceDunder_dd rest⟩
    · exact ⟨replaceDunder (c2 :: rest), replaceDunder_ne c c2 rest hd⟩

theorem collapseRuns_head : ∀ (c : Char) (l : List Char), ∃ t, collapseRuns (c :: l) = c :: t
  | _, [] => ⟨[], rfl⟩
  | c, c2 :: rest => by
    by_cases hd : c = '_' ∧ c2 = '_'
    · obtain ⟨h1, h2⟩ := hd
      subst h1; subst h2
      obtain ⟨t, ht⟩ := collapseRuns_head '_' rest
      exact ⟨t, by rw [collapseRuns_dd]; exact ht⟩
    · exact ⟨collapseRuns (c2 :: rest), collapseRuns_ne c c2 rest hd⟩

theorem replaceDunder_length_le : ∀ s : List Char, (replaceDunder s).length ≤ s.length
  | [] => Nat.le_refl _
  | [_] => Nat.le_refl _
  | c1 :: c2 :: rest => by
    by_cases hd : c1 = '_' ∧ c2 = '_'
    · obtain ⟨h1, h2⟩ := hd
      subst h1; subst h2
      have ih := replaceDunder_length_le rest
      rw [replaceDunder_dd]
      simp only [List.length_cons]
      omega
    · have ih := replaceDunder_length_le (c2 :: rest)
      rw [replaceDunder_ne c1 c2 rest hd]
      simp only [List.length_cons] at ih ⊢
      omega

theorem replaceDunder_length_lt :
    ∀ s : List Char, hasDunder s = true → (replaceDunder s).length < s.length
  | [], h => by simp [hasDunder] at h
  | [c], h => by simp [hasDunder] at h
  | c1 :: c2 :: rest, h => by
    by_cases hd : c1 = '_' ∧ c2 = '_'
    · obtain ⟨h1, h2⟩ := hd
      subst h1; subst h2
      have hle := replaceDunder_length_le rest
      rw [replaceDunder_dd]
      simp only [List.length_cons]
      omega
    · rw [hasDunder_ne c1 c2 rest hd] at h
      have ih := replaceDunder_length_lt (c2 :: rest) h
      rw [replaceDunder_ne c1 c2 rest hd]
      simp only [List.length_cons] at ih ⊢
      omega

theorem collapseRuns_self : ∀ s : List Char, hasDunder s = false → collapseRuns s = s
  | [], _ => rfl
  | [_], _ => rfl
  | c1 :: c2 :: rest, h => by
    by_cases hd : c1 = '_' ∧ c2 = '_'
    · rw [hasDunder, if_pos hd] at h
      exact absurd h (by decide)
    · rw [hasDunder_ne c1 c2 rest hd] at h
      rw [collapseRuns_ne c1 c2 rest hd, collapseRuns_self (c2 :: rest) h]

theorem hasDunder_collapseRuns : ∀ s : List Char, hasDunder (collapseRuns s) = false
  | [] => rfl
  | [_] => rfl
  | c1 :: c2 :: rest => by
    by_cases hd : c1 = '_' ∧ c2 = '_'
    · obtain ⟨h1, h2⟩ := hd
      subst h1; subst h2
      rw [collapseRuns_dd]
      exact hasDunder_collapseRuns ('_' :: rest)
    · rw [collapseRuns_ne c1 c2 rest hd]
      obtain ⟨t, ht⟩ := collapseRuns_head c2 rest
      rw [ht, hasDunder_ne c1 c2 t hd, ← ht]
      exact hasDunder_collapseRuns (c2 :: rest)

theorem mem_collapseRuns : ∀ (s : List Char) (c : Char), c ∈ collapseRuns s → c ∈ s
  | [], _, h => h
  | [_], _, h => h
  | c1 :: c2 :: rest, c, h => by
    by_cases hd : c1 = '_' ∧ c2 = '_'
    · obtain ⟨h1, h2⟩ := hd
      subst h1; subst h2
      rw [collapseRuns_dd] at h
      exact List.mem_cons_of_mem _ (mem_collapseRuns ('_' :: rest) c h)
    · rw [collapseRuns_ne c1 c2 rest hd] at h
      rcases List.mem_cons.mp h with h1 | h1
      · exact h1 ▸ List.mem_cons_self _ _
      · exact List.mem_cons_of_mem _ (mem_collapseRuns (c2 :: rest) c h1)

theorem rD_collapse : ∀ s : List Char,
    collapseRuns (replaceDunder s) = collapseRuns s ∧
    collapseRuns ('_' :: replaceDunder s) = collapseRuns ('_' :: s)
  | [] => ⟨rfl, rfl⟩
  | [_] => ⟨rfl, rfl⟩
  | c1 :: c2 :: rest => by
    have ih1 := rD_collapse rest
    have ih2 := rD_collapse (c2 :: rest)
    by_cases hd : c1 = '_' ∧ c2 = '_'
    · obtain ⟨h1, h2⟩ := hd
      subst h1; subst h2
      constructor
      · rw [replaceDunder_dd]
        simp only [collapseRuns_dd]
        exact ih1.2
      · rw [replaceDunder_dd]
        simp only [collapseRuns_dd]
        exact ih1.2
    · obtain ⟨t, ht⟩ := replaceDunder_head c2 rest
      constructor
      · rw [replaceDunder_ne c1 c2 rest hd, ht, collapseRuns_ne c1 c2 t hd, ← ht, ih2.1,
          collapseRuns_ne c1 c2 rest hd]
      · rw [replaceDunder_ne c1 c2 rest hd]
        by_cases hc1 : c1 = '_'
        · subst hc1
          rw [collapseRuns_dd, ih2.2, collapseRuns_dd]
        · have hu : ¬('_' = '_' ∧ c1 = '_') := fun hc => hc1 hc.2
          rw [collapseRuns_ne '_' c1 _ hu, ht, collapseRuns_ne c1 c2 t hd, ← ht, ih2.1,
            collapseRuns_ne '_' c1 _ hu, collapseRuns_ne c1 c2 rest hd]

theorem collapseLoopFuel_eq :
    ∀ (n : Nat) (s : List Char), s.length ≤ n → collapseLoopFuel n s = collapseRuns s
  | 0, s, h => by
    have hnil : s = [] := List.eq_nil_of_length_eq_zero (Nat.le_zero.mp h)
    subst hnil
    rfl
  | n + 1, s, h => by
    rw [collapseLoopFuel]
    by_cases hdun : hasDunder s = true
    · rw [if_pos hdun]
      have hlt := replaceDunder_length_lt s hdun
      have hle : (replaceDunder s).length ≤ n := by omega
      rw [collapseLoopFuel_eq n (replaceDunder s) hle]
      exact (rD_collapse s).1
    · rw [if_neg hdun]
      have hf : hasDunder s = false := by
        cases hx : hasDunder s with
        | true => exact absurd hx hdun
        | false => rfl
      exact (collapseRuns_self s hf).symm

theorem sanitizeList_eq_ref : ∀ s : List Char, sanitizeList s = sanitizeRefList s := by
  intro s
  cases s with
  | nil => rfl
  | cons a s0 =>
    rw [sanitizeList, if_neg (List.cons_ne_nil a s0)]
    rw [if_neg (by simp : ¬((a :: s0).map pyRepl = []))]
    rw [List.map_cons]
    obtain ⟨t, ht⟩ := collapseRuns_head (pyRepl a) (s0.map pyRepl)
    by_cases hdig : (pyRepl a).isDigit = true
    · rw [if_pos (by simpa using hdig)]
      rw [sanitizeRefList, List.map_cons, ht]
      rw [if_pos (by simpa using hdig)]
      rw [collapseLoopFuel_eq _ _ (Nat.le_refl _)]
      have hnu : ¬('_' = '_' ∧ pyRepl a = '_') := by
        intro hc
        rw [hc.2] at hdig
        exact absurd hdig (by decide)
      rw [collapseRuns_ne _ _ _ hnu, ht]
    · rw [if_neg (by simpa using hdig)]
      rw [sanitizeRefList, List.map_cons, ht]
      rw [if_neg (by simpa using hdig)]
      rw [collapseLoopFuel_eq _ _ (Nat.le_refl _), ht]

theorem sanitize_eq_ref (name : String) : _sanitize_attribute_name name = sanitizeRef name :=
  congrArg String.mk (sanitizeList_eq_ref name.data)

theorem pyRepl_pyRepl (c : Char) : pyRepl (pyRepl c) = pyRepl c := by
  by_cases h : c.isAlphanum = true ∨ c = '_'
  · have h1 : pyRepl c = c := by rw [pyRepl, if_pos h]
    rw [h1]
    exact h1
  · have h1 : pyRepl c = '_' := by rw [pyRepl, if_neg h]
    rw [h1]
    decide

theorem mem_sanitizeRefList_fix (s : List Char) (c : Char) (hc : c ∈ sanitizeRefList s) :
    pyRepl c = c := by
  have key : ∀ d ∈ collapseRuns (s.map pyRepl), pyRepl d = d := by
    intro d hd
    obtain ⟨a, _, ha⟩ := List.mem_map.mp (mem_collapseRuns _ _ hd)
    rw [← ha]
    exact pyRepl_pyRepl a
  rw [sanitizeRefList] at hc
  by_cases hdig : ((collapseRuns (s.map pyRepl)).headD ' ').isDigit = true
  · rw [if_pos hdig] at hc
    rcases List.mem_cons.mp hc with h1 | h1
    · rw [h1]; decide
    · exact key c h1
  · rw [if_neg hdig] at hc
    exact key c hc

theorem hasDunder_sanitizeRefList (s : List Char) : hasDunder (sanitizeRefList s) = false := by
  rw [sanitizeRefList]
  by_cases hdig : ((collapseRuns (s.map pyRepl)).headD ' ').isDigit = true
  · rw [if_pos hdig]
    cases hcol : collapseRuns (s.map pyRepl) with
    | nil => rfl
    | cons d t =>
      rw [hcol] at hdig
      simp only [List.headD_cons] at hdig
      have hne : ¬('_' = '_' ∧ d = '_') := by
        intro hc
        rw [hc.2] at hdig
        exact absurd hdig (by decide)
      rw [hasDunder_ne '_' d t hne, ← hcol]
      exact hasDunder_collapseRuns _
  · rw [if_neg hdig]
    exact hasDunder_collapseRuns _

theorem headD_sanitizeRefList_not_digit (s : List Char) :
    ((sanitizeRefList s).headD ' ').isDigit = false := by
  rw [sanitizeRefList]
  by_cases hdig : ((collapseRuns (s.map pyRepl)).headD ' ').isDigit = true
  · rw [if_pos hdig]
    simp only [List.headD_cons]
    decide
  · rw [if_neg hdig]
    cases hx : ((collapseRuns (s.map pyRepl)).headD ' ').isDigit with
    | true => exact absurd hx hdig
    | false => rfl

theorem sanitizeRefList_idem (s : List Char) :
    sanitizeRefList (sanitizeRefList s) = sanitizeRefList s := by
  have hmap : (sanitizeRefList s).map pyRepl = sanitizeRefList s := by
    have hfix : ∀ a ∈ sanitizeRefList s, pyRepl a = id a :=
      fun a ha => mem_sanitizeRefList_fix s a ha
    rw [List.map_congr_left hfix, List.map_id]
  rw [sanitizeRefList, hmap, collapseRuns_self _ (hasDunder_sanitizeRefList s)]
  have hnd := headD_sanitizeRefList_not_digit s
  rw [if_neg (by rw [hnd]; exact Bool.false_ne_true)]

theorem sanitizeList_idem (s : List Char) : sanitizeList (sanitizeList s) = sanitizeList s := by
  rw [sanitizeList_eq_ref s, sanitizeList_eq_ref (sanitizeRefList s), sanitizeRefList_idem]

/-! ### Lemmas about glob matching and filtering -/

theorem starLoop_isEmpty : ∀ s : List Char, starLoop (fun t => matchToks [] t) s = true
  | [] => rfl
  | c :: s => by
    rw [starLoop]
    simp [starLoop_isEmpty s]

theorem matchToks_star_nil (s : List Char) : matchToks [Tok.star] s = true := by
  rw [matchToks]
  exact starLoop_isEmpty s

theorem fnmatch_star (name : String) : fnmatch name "*" = true := by
  have hc : compilePat ("*".data) = [Tok.star] := rfl
  rw [fnmatch, hc]
  exact matchToks_star_nil name.data

theorem filterLoop_eq_filter (patterns : List String) : ∀ l : List FileRef,
    filterLoop patterns l = l.filter (fun f => patterns.any fun pat => fnmatch f.name pat)
  | [] => rfl
  | f :: rest => by
    by_cases h : (patterns.any fun pat => fnmatch f.name pat) = true <;>
      simp [filterLoop, List.filter_cons, h, filterLoop_eq_filter patterns rest]

theorem readLoop_eq_filterMap : ∀ l : List FileRef, readLoop l = l.filterMap FileRef.content
  | [] => rfl
  | f :: rest => by
    cases hf : f.content <;>
      simp [readLoop, List.filterMap_cons, hf, readLoop_eq_filterMap rest]

theorem readLoop_length_le : ∀ l : List FileRef, (readLoop l).length ≤ l.length
  | [] => Nat.le_refl _
  | f :: rest => by
    have ih := readLoop_length_le rest
    cases hf : f.content <;> simp [readLoop, hf] <;> omega

/-! ### Lemmas about the subdirectory mapping -/

theorem lookupSub_append (m m2 : List (String × Dir)) (k : String) (p : Dir)
    (h : lookupSub m k = some p) : lookupSub (m ++ m2) k = some p := by
  induction m with
  | nil => simp [lookupSub] at h
  | cons kv rest ih =>
    obtain ⟨k2, v2⟩ := kv
    rw [List.cons_append, lookupSub]
    rw [lookupSub] at h
    by_cases hk : k2 = k
    · rw [if_pos hk] at h ⊢
      exact h
    · rw [if_neg hk] at h ⊢
      exact ih h

theorem dictInsert_append (m : List (String × Dir)) (c : String) (v : Dir)
    (h : lookupSub m c = none) : dictInsert m c v = m ++ [(c, v)] := by
  induction m with
  | nil => rfl
  | cons kv rest ih =>
    obtain ⟨k2, v2⟩ := kv
    rw [lookupSub] at h
    by_cases hk : k2 = c
    · rw [if_pos hk] at h
      exact absurd h (by simp)
    · rw [if_neg hk] at h
      rw [dictInsert, if_neg hk, ih h, List.cons_append]

theorem resolveName_isNone_lookup (m : List (String × Dir)) (c : String)
    (h : (resolveName m c).isSome = false) : lookupSub m c = none := by
  cases hl : lookupSub m c with
  | none => rfl
  | some sub =>
    simp only [resolveName, hl, Option.isSome_some] at h
    exact absurd h (by decide)

theorem registerCand_preserves (child : Dir) (m : List (String × Dir)) (cand k : String) (p : Dir)
    (h : lookupSub m k = some p) : lookupSub (registerCand child m cand) k = some p := by
  rw [registerCand]
  by_cases hg : cand ∈ builtinMembers ∨ (resolveName m cand).isSome = true
  · rw [if_pos hg]
    exact h
  · rw [if_neg hg]
    have hns : (resolveName m cand).isSome = false := by
      cases hx : (resolveName m cand).isSome with
      | true => exact absurd (Or.inr hx) hg
      | false => rfl
    have hl : lookupSub m cand = none := resolveName_isNone_lookup m cand hns
    rw [hl]
    show lookupSub (dictInsert m cand child) k = some p
    rw [dictInsert_append m cand child hl]
    exact lookupSub_append m [(cand, child)] k p h

theorem foldl_registerCand_preserves (child : Dir) (k : String) (p : Dir) :
    ∀ (cands : List String) (m : List (String × Dir)), lookupSub m k = some p →
      lookupSub (cands.foldl (registerCand child) m) k = some p
  | [], _, h => h
  | c :: cs, m, h => by
    rw [List.foldl_cons]
    exact foldl_registerCand_preserves child k p cs _ (registerCand_preserves child m c k p h)

theorem registerAll_preserves (k : String) (p : Dir) :
    ∀ (dirs : List Dir) (m : List (String × Dir)), lookupSub m k = some p →
      lookupSub (registerAll m dirs) k = some p
  | [], _, h => h
  | d :: ds, m, h => by
    show lookupSub (registerAll (registerChild m d) ds) k = some p
    exact registerAll_preserves k p ds _
      (foldl_registerCand_preserves d k p (candidatesFor d.name) m h)

theorem keys_dictInsert (m : List (String × Dir)) (c : String) (v : Dir) (k : String)
    (h : k ∈ (dictInsert m c v).map Prod.fst) : k ∈ m.map Prod.fst ∨ k = c := by
  induction m with
  | nil =>
    simp [dictInsert] at h
    exact Or.inr h
  | cons kv rest ih =>
    obtain ⟨k2, v2⟩ := kv
    rw [dictInsert] at h
    by_cases hk : k2 = c
    · rw [if_pos hk] at h
      simp only [List.map_cons, List.mem_cons] at h ⊢
      rcases h with h | h
      · exact Or.inl (Or.inl h)
      · exact Or.inl (Or.inr h)
    · rw [if_neg hk] at h
      simp only [List.map_cons, List.mem_cons] at h ⊢
      rcases h with h | h
      · exact Or.inl (Or.inl h)
      · rcases ih h with h2 | h2
        · exact Or.inl (Or.inr h2)
        · exact Or.inr h2

theorem keys_registerCand (child : Dir) (m : List (String × Dir)) (cand k : String)
    (h : k ∈ (registerCand child m cand).map Prod.fst) :
    k ∈ m.map Prod.fst ∨ (cand ∉ builtinMembers ∧ k = cand) := by
  rw [registerCand] at h
  by_cases hg : cand ∈ builtinMembers ∨ (resolveName m cand).isSome = true
  · rw [if_pos hg] at h
    exact Or.inl h
  · rw [if_neg hg] at h
    have hcb : cand ∉ builtinMembers := fun hx => hg (Or.inl hx)
    cases hl : lookupSub m cand with
    | some existing =>
      simp only [hl] at h
      by_cases hp : existing.path ≠ child.path
      · rw [if_pos hp] at h
        exact Or.inl h
      · rw [if_neg hp] at h
        rcases keys_dictInsert m cand child k h with h2 | h2
        · exact Or.inl h2
        · exact Or.inr ⟨hcb, h2⟩
    | none =>
      simp only [hl] at h
      rcases keys_dictInsert m cand child k h with h2 | h2
      · exact Or.inl h2
      · exact Or.inr ⟨hcb, h2⟩

theorem keys_foldl_not_builtin (child : Dir) :
    ∀ (cands : List String) (m : List (String × Dir)),
      (∀ k ∈ m.map Prod.fst, k ∉ builtinMembers) →
      ∀ k ∈ (cands.foldl (registerCand child) m).map Prod.fst, k ∉ builtinMembers
  | [], _, hm => hm
  | c :: cs, m, hm => by
    rw [List.foldl_cons]
    apply keys_foldl_not_builtin child cs
    intro k hk
    rcases keys_registerCand child m c k hk with h | h
    · exact hm k h
    · rw [h.2]
      exact h.1

theorem keys_registerAll_not_builtin :
    ∀ (dirs : List Dir) (m : List (String × Dir)),
      (∀ k ∈ m.map Prod.fst, k ∉ builtinMembers) →
      ∀ k ∈ (registerAll m dirs).map Prod.fst, k ∉ builtinMembers
  | [], _, hm => hm
  | d :: ds, m, hm => by
    show ∀ k ∈ (registerAll (registerChild m d) ds).map Prod.fst, k ∉ builtinMembers
    apply keys_registerAll_not_builtin ds
    exact keys_foldl_not_builtin d (candidatesFor d.name) m hm

theorem resolveName_eq_chain (m : List (String × Dir)) (name : String) :
    resolveName m name = lookupChainRef m name := by
  simp only [resolveName, lookupChainRef, List.findSome?]
  cases lookupSub m name <;>
    cases lookupSub m (_sanitize_attribute_name name) <;>
      cases lookupSub m (pyLower name) <;>
        cases lookupSub m (pyLower (_sanitize_attribute_name name)) <;> rfl

/-! ### Claim theorems -/

/-- C1: for every sequence of file paths and every non-empty sequence of
glob patterns, _filter_files returns exactly the subsequence of the input
whose base name matches at least one pattern under shell glob semantics,
in the original relative order with each element kept at most once: it
equals one pass of List.filter with the any-pattern-matches predicate. -/
theorem c1_filter_returns_matching_subsequence (files : List FileRef) (patterns : List String)
    (h : patterns ≠ []) :
    _filter_files files patterns =
      files.filter (fun f => patterns.any fun pat => fnmatch f.name pat) := by
  by_cases hstar : patterns = ["*"]
  · subst hstar
    rw [_filter_files, if_pos (Or.inr rfl)]
    symm
    apply List.filter_eq_self.mpr
    intro f _
    simp [fnmatch_star]
  · rw [_filter_files, if_neg (fun hc => hc.elim h hstar)]
    exact filterLoop_eq_filter patterns files

/-- Witness for C1 at a concrete file list and pattern list. -/
theorem c1_witness :
    _filter_files exFiles ["*.py"] =
      exFiles.filter (fun f => (["*.py"] : List String).any fun pat => fnmatch f.name pat) :=
  c1_filter_returns_matching_subsequence exFiles ["*.py"] (by decide)

/-- C2 counterexample: the claim predicts that calling all with an
explicitly provided empty sequence of patterns uses the normalized
override (the match-all pattern) and therefore lists every file; on the
facade exD with default patterns for Python files only, the code instead
falls back to the defaults, so the two computations differ. -/
theorem c2_counterexample :
    DirClass.all exD (PyPatterns.seq []) ≠
      (_filter_files (_iter_files exD.root exD.recursive)
        (_ensure_patterns (PyPatterns.seq []))).map FileRef.toString := by
  decide

/-- C2 amended: all uses the override patterns, normalized, exactly when
the override is truthy (a non-empty string or a non-empty sequence); when
the override is None, an empty string, or an empty sequence, it falls
back to the instance default patterns, normalized per the constructor
rule. In particular an explicitly provided empty sequence selects the
instance defaults, not the match-all pattern. -/
theorem c2_all_uses_truthiness_fallback (d : DirClass) (file_types : PyPatterns) :
    DirClass.all d file_types =
      (if truthy file_types then
        (_filter_files (_iter_files d.root d.recursive)
          (_ensure_patterns file_types)).map FileRef.toString
      else
        (_filter_files (_iter_files d.root d.recursive)
          (_ensure_patterns (patternsOfOption d.default_file_types))).map FileRef.toString) := by
  by_cases ht : truthy file_types = true
  · rw [if_pos ht]
    simp only [DirClass.all, pyOr, if_pos ht]
  · rw [if_neg ht]
    simp only [DirClass.all, pyOr, if_neg ht]

/-- C3: read_all never raises for an individual file failure (it is a
total function on the model, where a failing file is one whose content is
none): it returns exactly the decoded contents of the successfully read
files among the matched files, in the same relative order, and the result
is never longer than the matched path list. -/
theorem c3_read_all_skips_failing_files (d : DirClass) (file_types : PyPatterns) :
    DirClass.read_all d file_types = (matchedFiles d file_types).filterMap FileRef.content ∧
    (DirClass.read_all d file_types).length ≤ (matchedFiles d file_types).length := by
  have h1 : DirClass.read_all d file_types = readLoop (matchedFiles d file_types) := rfl
  constructor
  · rw [h1]
    exact readLoop_eq_filterMap _
  · rw [h1]
    exact readLoop_length_le _

/-- C4: first registrant wins. Once a key is bound to a directory after
processing a prefix of the children, processing any further children
never overwrites the binding, and the dynamic accessor applied to that
key on the final facade returns the first directory's file listing. -/
theorem c4_first_registrant_wins (dirs1 dirs2 : List Dir) (k : String) (p : Dir)
    (root : Dir) (recursive : Bool) (dft : Option (List String))
    (h : lookupSub (registerAll [] dirs1) k = some p) :
    lookupSub (registerAll [] (dirs1 ++ dirs2)) k = some p ∧
    DirClass.getattr ⟨root, recursive, dft, registerAll [] (dirs1 ++ dirs2)⟩ k =
      Except.ok (getattrFiles ⟨root, recursive, dft, registerAll [] (dirs1 ++ dirs2)⟩ p) := by
  have hfull : lookupSub (registerAll [] (dirs1 ++ dirs2)) k = some p := by
    rw [registerAll, List.foldl_append]
    exact registerAll_preserves k p dirs2 _ h
  refine ⟨hfull, ?_⟩
  simp only [DirClass.getattr, resolveName, hfull]

/-- Witness for C4: two child directories whose names sanitize to the
same key; after processing both, the key still resolves to the first. -/
theorem c4_witness :
    lookupSub (registerAll [] ([exDirA] ++ [exDirB])) "My_Data" = some exDirA :=
  (c4_first_registrant_wins [exDirA] [exDirB] "My_Data" exDirA exDirA true Option.none rfl).1

/-- C5: the dynamic accessor resolves a requested name by trying, in
order, the exact key, the sanitized key, the lowercase key, and the
lowercase sanitized key, returning the filtered file listing of the first
hit, and when none of the four lookups hits it fails with an unknown
member error that identifies the requested name. -/
theorem c5_getattr_resolution_order (d : DirClass) (name : String) :
    DirClass.getattr d name =
      match lookupChainRef d._subdir_name_to_path name with
      | some sub => Except.ok (getattrFiles d sub)
      | none => Except.error (unknownMember name) := by
  simp only [DirClass.getattr]
  rw [resolveName_eq_chain]

/-- C6: the factory fails with a not-a-directory error naming the
resolved path whenever the resolved path is not an existing directory,
returning no facade; and for every existing directory it returns a facade
whose root is the resolved path, carrying the normalized default
patterns. -/
theorem c6_factory_requires_directory (stat : String → Option PathKind)
    (resolve : String → String) (p : String) (recursive : Bool) (ft : PyPatterns) :
    ((∀ ch, stat (resolve p) ≠ some (PathKind.dirNode ch)) →
      dirclass stat resolve p recursive ft =
        Except.error ("Not a directory: " ++ resolve p)) ∧
    (∀ ch, stat (resolve p) = some (PathKind.dirNode ch) →
      dirclass stat resolve p recursive ft =
        Except.ok (mkDirClass ⟨[resolve p], resolve p, ch⟩ recursive
          (some (_ensure_patterns ft)))) := by
  constructor
  · intro h
    simp only [dirclass]
  · intro ch h
    simp only [dirclass]
    rw [h]

/-- Witness for C6: a concrete filesystem where one path is a directory
and another does not exist. -/
theorem c6_witness :
    dirclass statW (fun s => s) "/data" true PyPatterns.none =
      Except.ok (mkDirClass ⟨["/data"], "/data", EntryList.nil⟩ true (some ["*"])) ∧
    dirclass statW (fun s => s) "/nope" true PyPatterns.none =
      Except.error ("Not a directory: " ++ "/nope") :=
  ⟨(c6_factory_requires_directory statW (fun s => s) "/data" true PyPatterns.none).2
      EntryList.nil rfl,
   (c6_factory_requires_directory statW (fun s => s) "/nope" true PyPatterns.none).1
      (fun ch h => by
        rw [show statW ((fun s : String => s) "/nope") = Option.none from rfl] at h
        exact Option.noConfusion h)⟩

/-- C7: no key of the subdirectory mapping built at construction equals a
built-in member name (colliding candidates are skipped), and since the
dynamic accessor is consulted only when ordinary member lookup fails,
requesting a built-in member name always returns the built-in behavior
and never a subdirectory listing. -/
theorem c7_builtin_members_shadow_subdirs (root : Dir) (recursive : Bool)
    (dft : Option (List String)) (b : String) (hb : b ∈ builtinMembers) :
    (∀ k ∈ (post_init root).map Prod.fst, k ∉ builtinMembers) ∧
    DirClass.accessAttr (mkDirClass root recursive dft) b = AttrResult.builtin b := by
  constructor
  · exact keys_registerAll_not_builtin (subdirEntries root.path root.children) []
      (by intro k hk; simp at hk)
  · simp only [DirClass.accessAttr]
    rw [if_pos hb]

/-- Witness for C7: requesting the built-in method name all on a concrete
facade returns the built-in member. -/
theorem c7_witness :
    DirClass.accessAttr (mkDirClass exDirA true Option.none) "all" = AttrResult.builtin "all" :=
  (c7_builtin_members_shadow_subdirs exDirA true Option.none "all" (by decide)).2

/-- C8: the sanitization function agrees everywhere with the reference
definition written from the specification: replace every character that
is not alphanumeric and not an underscore by an underscore, collapse runs
of repeated underscores to one, and prefix an underscore when the result
would start with a digit; the empty string maps to the empty string. -/
theorem c8_sanitize_matches_reference (name : String) :
    _sanitize_attribute_name name = sanitizeRef name :=
  sanitize_eq_ref name

/-- C9: filtering with the pattern list that is exactly the single
match-all pattern short-circuits to the input unchanged, and the
non-short-circuited matching loop computes the same result on that
pattern list, since the star pattern matches every base name. -/
theorem c9_star_short_circuit_equiv (files : List FileRef) :
    _filter_files files ["*"] = files ∧ filterLoop ["*"] files = files := by
  constructor
  · rw [_filter_files, if_pos (Or.inr rfl)]
  · induction files with
    | nil => rfl
    | cons f rest ih =>
      have hc : ((["*"] : List String).any fun pat => fnmatch f.name pat) = true := by
        simp [fnmatch_star]
      rw [filterLoop, if_pos hc, ih]

/-- C10: the sanitization function is idempotent: applying it twice gives
the same result as applying it once, because its output contains only
alphanumeric and underscore characters, no two consecutive underscores,
and never starts with a digit. -/
theorem c10_sanitize_idempotent (name : String) :
    _sanitize_attribute_name (_sanitize_attribute_name name) = _sanitize_attribute_name name :=
  congrArg String.mk (sanitizeList_idem name.data)
